import Mathlib

/-!
# git-mfpr — shallow embedding of the migration orchestrator

This file embeds the core of the `git-mfpr` repository in Lean 4:

* `internal/migrate/migrate.go` (the context-based revision): reference
  resolution (`parsePRRef`), validation (`validatePRState`), branch naming,
  the single-PR workflow (`MigratePR`) and the batch loop (`MigratePRs`);
* `internal/migrate/errors.go`: the typed error values and their rendering;
* `internal/git` (`CurrentRepo`): parsing of the `origin` remote URL;
* the slug-based branch namer (`GenerateBranchName` of the draft revision)
  together with `slugify`.

Strings are represented as `List Char` (`Str`).  The Go standard-library
string helpers used by the source (`strings.Split`, `strings.Trim`,
`strings.EqualFold`, `strconv.Atoi`, …) are modelled below; each model's
doc comment names the Go function it embeds.  The two external
collaborators (the Git provider and the GitHub provider) are records of
pure functions; every collaborator invocation and every emitted event is
recorded in a `Trace`, so that theorems can speak about which collaborator
methods a run of the orchestrator calls.
-/

deriving instance DecidableEq for Except

namespace GitMfpr

/-- Strings of the embedding: Go strings as lists of characters. -/
abbrev Str := List Char

/-- Coerce a Lean string literal to `Str`. -/
def str (s : String) : Str := s.data

/-- ASCII lower-casing of one character.  Models Go `strings.ToLower` /
`unicode.ToLower` on the ASCII range (the only range the claims exercise;
outside ASCII Go folds more characters, all of which `slugify` collapses
to hyphens anyway). -/
def toLowerChar (c : Char) : Char :=
  if 'A' ≤ c ∧ c ≤ 'Z' then Char.ofNat (c.toNat + 32) else c

/-- Models Go `strings.ToLower` (ASCII range). -/
def goToLower (s : Str) : Str := s.map toLowerChar

/-- Models Go `strings.HasPrefix`. -/
def goStartsWith (prefx s : Str) : Bool :=
  match prefx, s with
  | [], _ => true
  | _ :: _, [] => false
  | p :: ps, c :: cs => p = c && goStartsWith ps cs

/-- Models Go `strings.TrimPrefix` (drops `prefx` when it is a prefix). -/
def goTrimStart (prefx s : Str) : Str :=
  if goStartsWith prefx s then s.drop prefx.length else s

/-- Models Go `strings.HasSuffix`. -/
def goHasSuffix (suffix s : Str) : Bool :=
  goStartsWith suffix.reverse s.reverse

/-- Models Go `strings.TrimSuffix`. -/
def goTrimSuffix (suffix s : Str) : Str :=
  if goHasSuffix suffix s then s.take (s.length - suffix.length) else s

/-- Models Go `strings.Split` for a one-character separator (the source
only ever splits on `"/"` and `"#"`, and on `"github.com/"`, for which
see `goSplitSub`). -/
def goSplitChar (sep : Char) : Str → List Str
  | [] => [[]]
  | c :: cs =>
    if c = sep then [] :: goSplitChar sep cs
    else
      match goSplitChar sep cs with
      | [] => [[c]]
      | p :: ps => (c :: p) :: ps

/-- Does `sub` occur in `s`?  Models Go `strings.Contains`. -/
def goContains : Str → Str → Bool
  | s, sub =>
    match s with
    | [] => sub.isEmpty
    | _ :: cs => goStartsWith sub s || goContains cs sub

/-- Fuel-driven worker for `goSplitSub`. -/
def goSplitSubAux (sep : Str) : Nat → Str → Str → List Str
  | 0, s, acc => [acc.reverse ++ s]
  | _ + 1, [], acc => [acc.reverse]
  | fuel + 1, c :: cs, acc =>
    if goStartsWith sep (c :: cs) then
      acc.reverse :: goSplitSubAux sep fuel (List.drop (sep.length - 1) cs) []
    else
      goSplitSubAux sep fuel cs (c :: acc)

/-- Models Go `strings.Split` for a non-empty multi-character separator:
splits around each non-overlapping, left-most occurrence of `sep`. -/
def goSplitSub (s sep : Str) : List Str :=
  goSplitSubAux sep (s.length + 1) s []

/-- Drop leading characters equal to `cut`. -/
def dropLeadChar (cut : Char) : Str → Str
  | [] => []
  | c :: cs => if c = cut then dropLeadChar cut cs else c :: cs

/-- Models Go `strings.Trim` with a one-character cutset. -/
def goTrimChar (cut : Char) (s : Str) : Str :=
  ((dropLeadChar cut ((dropLeadChar cut s).reverse)).reverse)

/-- Models Go `strings.TrimRight` with a one-character cutset. -/
def goTrimRightChar (cut : Char) (s : Str) : Str :=
  (dropLeadChar cut s.reverse).reverse

/-- ASCII whitespace recognised by Go `unicode.IsSpace` (the remote URLs
fed to `strings.TrimSpace` are command output with a trailing newline). -/
def isSpaceChar (c : Char) : Bool :=
  c = ' ' || c = '\t' || c = '\n' || c = '\x0b' || c = '\x0c' || c = '\r'

/-- Drop leading whitespace. -/
def dropLeadSpace : Str → Str
  | [] => []
  | c :: cs => if isSpaceChar c then dropLeadSpace cs else c :: cs

/-- Models Go `strings.TrimSpace` (ASCII whitespace). -/
def goTrimSpace (s : Str) : Str :=
  ((dropLeadSpace ((dropLeadSpace s).reverse)).reverse)

/-- Models Go `strings.EqualFold` on the ASCII range: case-insensitive
equality (Go additionally folds non-ASCII letters, which the claims never
exercise). -/
def goEqualFold : Str → Str → Bool
  | [], [] => true
  | c :: cs, d :: ds => toLowerChar c = toLowerChar d && goEqualFold cs ds
  | _, _ => false

/-- Decimal digit test. -/
def isDigitChar (c : Char) : Bool := '0' ≤ c ∧ c ≤ '9'

/-- Decimal value of a digit string. -/
def digitsToNat : Str → Nat → Nat
  | [], acc => acc
  | c :: cs, acc => digitsToNat cs (acc * 10 + (c.toNat - '0'.toNat))

/-- Split an optional leading sign off a numeral.  Returns
(negative?, digits). -/
def splitSign : Str → Bool × Str
  | '+' :: cs => (false, cs)
  | '-' :: cs => (true, cs)
  | s => (false, s)

/-- Models Go `strconv.Atoi` (= `strconv.ParseInt(s, 10, 0)` on a 64-bit
platform): an optional sign followed by at least one decimal digit, with
the result required to fit in a signed 64-bit integer.  `none` models the
error return. -/
def goAtoi (s : Str) : Option Int :=
  let (neg, digits) := splitSign s
  if digits.isEmpty ∨ ¬ digits.all isDigitChar then none
  else
    let v : Int := if neg then -(digitsToNat digits 0 : Int) else (digitsToNat digits 0 : Int)
    if v < -(2 ^ 63) ∨ v > 2 ^ 63 - 1 then none else some v

/-- Is the numeral syntactically well-formed for `strconv.Atoi`? -/
def atoiSyntaxOk (s : Str) : Bool :=
  let (_, digits) := splitSign s
  ¬ digits.isEmpty && digits.all isDigitChar

/-- The rendering of the `*strconv.NumError` returned by a failing
`strconv.Atoi` call (without Go's escaping of special characters inside
the quoted numeral, which the claims never exercise). -/
def atoiErrMsg (s : Str) : Str :=
  str "strconv.Atoi: parsing \x22" ++ s ++ str "\x22: " ++
    (if atoiSyntaxOk s then str "value out of range" else str "invalid syntax")

/-- Decimal digits of a natural number (fuel-driven so that the kernel
can evaluate it). -/
def natToStrAux : Nat → Nat → Str → Str
  | 0, _, acc => acc
  | fuel + 1, n, acc =>
    let d := Char.ofNat ('0'.toNat + n % 10)
    if n < 10 then d :: acc else natToStrAux fuel (n / 10) (d :: acc)

/-- Decimal rendering of a natural number. -/
def natToStr (n : Nat) : Str := natToStrAux (n + 1) n []

/-- Decimal rendering of an integer; models Go `fmt.Sprintf("%d", i)` and
`strconv.Itoa`. -/
def intToStr (i : Int) : Str :=
  if i < 0 then '-' :: natToStr i.natAbs else natToStr i.toNat

/-! ## Data model (`internal/github`, `internal/migrate`) -/

/-- `github.PRInfo` (`internal/github/github.go`). -/
structure PRInfo where
  number : Int
  title : Str
  author : Str
  headBranch : Str
  baseBranch : Str
  state : Str
  url : Str
  headRefOID : Str
  isFork : Bool
deriving DecidableEq, Repr

/-- `migrate.Options`. -/
structure Options where
  dryRun : Bool
  branchName : Str
  noPush : Bool
  noCreate : Bool
deriving DecidableEq, Repr

/-- `migrate.EventType` with its four constants `EventInfo`, `EventSuccess`,
`EventError`, `EventCommand`. -/
inductive EventType where
  | info | success | error | command
deriving DecidableEq, Repr

/-- `migrate.Event`. -/
structure Event where
  type : EventType
  message : Str
  detail : Str
deriving DecidableEq, Repr

/-- One collaborator invocation, for recording which Git-provider /
GitHub-provider methods a run performs. -/
inductive Call where
  | currentRepo
  | getPR (owner repo : Str) (number : Int)
  | hasBranch (name : Str)
  | checkout (branch : Str)
  | pull (remote branch : Str)
  | push (remote branch : Str)
  | checkoutPR (owner repo : Str) (number : Int) (branch : Str)
deriving DecidableEq, Repr

/-- The four methods the spec calls mutating. -/
def Call.isMutating : Call → Bool
  | .checkout _ | .pull _ _ | .push _ _ | .checkoutPR _ _ _ _ => true
  | _ => false

/-- The observable output of a run: the events handed to the event handler
and the collaborator calls, both in order. -/
structure Trace where
  events : List Event
  calls : List Call
deriving DecidableEq, Repr

/-- The empty trace. -/
def Trace.nil : Trace := ⟨[], []⟩

/-- Concatenation of traces (sequencing two code fragments). -/
def Trace.app (t u : Trace) : Trace := ⟨t.events ++ u.events, t.calls ++ u.calls⟩

/-- A single emitted event, as a trace: models `Client.emit`. -/
def emit1 (ty : EventType) (message detail : Str) : Trace := ⟨[⟨ty, message, detail⟩], []⟩

/-- A single collaborator call, as a trace. -/
def call1 (c : Call) : Trace := ⟨[], [c]⟩

/-- The Git provider (`git.Git` interface), as pure data: each method's
outcome.  An `Except Str` result carries the rendered message of the Go
`error` value. -/
structure Git where
  currentRepo : Except Str (Str × Str)
  hasBranch : Str → Bool
  checkout : Str → Except Str Unit
  pull : Str → Str → Except Str Unit
  push : Str → Str → Except Str Unit

/-- The GitHub provider (`github.GitHub` interface), as pure data. -/
structure GitHub where
  getPR : Str → Str → Int → Except Str PRInfo
  checkoutPR : Str → Str → Int → Str → Except Str Unit

/-! ## Errors (`internal/migrate/errors.go` and the wrappers of
`migrate.go`) -/

/-- The error values a run of the orchestrator can return.  Constructors
`prNotFound` … `invalidPRRef` are the typed errors of `errors.go`;
`repoResolution`, `invalidURL`, `invalidPRNumberURL`, `invalidFormat`,
`invalidPRNumber`, `invalidRepoFormat` are the `fmt.Errorf` wrappers built
inside `parsePRRef`; `collab` is a collaborator error propagated
untouched (carried as its rendered message); `batch` is the aggregate
error of `MigratePRs`. -/
inductive MError where
  | repoResolution (detail : Str)
  | invalidURL (detail : Str)
  | invalidPRURLFormat
  | invalidPRNumberURL (numeral : Str)
  | invalidFormat
  | invalidPRNumber (numeral : Str)
  | invalidRepoFormat
  | invalidPRRef (ref : Str)
  | prNotFork (number : Int)
  | prClosed (number : Int) (state : Str)
  | branchExists (name : Str)
  | collab (message : Str)
  | batch (failures : List Str)
deriving DecidableEq, Repr

/-- Join strings with a separator; models Go `strings.Join`. -/
def goJoin (sep : Str) : List Str → Str
  | [] => []
  | [s] => s
  | s :: rest => s ++ sep ++ goJoin sep rest

/-- `Error()` rendering of each error value, matching `errors.go` and the
`fmt.Errorf` format strings of `migrate.go`. -/
def MError.message : MError → Str
  | .repoResolution d => str "not in a git repository or no origin remote: " ++ d
  | .invalidURL d => str "invalid URL: " ++ d
  | .invalidPRURLFormat => str "invalid GitHub PR URL format"
  | .invalidPRNumberURL s => str "invalid PR number in URL: " ++ atoiErrMsg s
  | .invalidFormat => str "invalid format, expected owner/repo#number"
  | .invalidPRNumber s => str "invalid PR number: " ++ atoiErrMsg s
  | .invalidRepoFormat => str "invalid repo format, expected owner/repo"
  | .invalidPRRef ref => str "unsupported PR reference format: " ++ ref
  | .prNotFork n => str "PR #" ++ intToStr n ++ str " is not from a fork"
  | .prClosed n s => str "PR #" ++ intToStr n ++ str " is " ++ s
  | .branchExists name =>
      str "branch " ++ name ++
        str " already exists. Use --branch-name to specify a different name or delete the existing branch"
  | .collab m => m
  | .batch failures => str "failed to migrate some PRs:\n" ++ goJoin (str "\n") failures

/-! ## The Git provider's `CurrentRepo` (`internal/git`, context revision) -/

/-- The URL-parsing part of `git.Client.CurrentRepo`: given the trimmed
output of `git remote get-url origin`, extract `(owner, repo)`.  Only
`github.com` remotes are recognised, via the literal prefix
`git@github.com:` (SSH) or a `github.com/` substring (HTTPS and the
like); on failure the rendered `ErrInvalidRemoteURL` is returned. -/
def parseRemoteURL (remoteURL : Str) : Except Str (Str × Str) :=
  if goStartsWith (str "git@github.com:") remoteURL then
    let parts := goTrimSuffix (str ".git") (goTrimStart (str "git@github.com:") remoteURL)
    match goSplitChar '/' parts with
    | [a, b] => .ok (a, b)
    | _ => .error (str "invalid remote URL format: " ++ remoteURL)
  else if goContains remoteURL (str "github.com") then
    match goSplitSub remoteURL (str "github.com/") with
    | [_, p1] =>
      let repoPath := goTrimSuffix (str ".git") p1
      match goSplitChar '/' repoPath with
      | [a, b] => .ok (a, b)
      | _ => .error (str "invalid remote URL format: " ++ remoteURL)
    | _ => .error (str "invalid remote URL format: " ++ remoteURL)
  else .error (str "invalid remote URL format: " ++ remoteURL)

/-- `git.Client.CurrentRepo`: `remoteOutput` is the outcome of running
`git remote get-url origin` (its raw stdout on success); the output is
trimmed of whitespace and parsed.  A failed command yields the rendered
`ErrGetRemoteURLFailed`. -/
def CurrentRepo (remoteOutput : Except Str Str) : Except Str (Str × Str) :=
  match remoteOutput with
  | .error d => .error (str "failed to get remote URL: " ++ d)
  | .ok out => parseRemoteURL (goTrimSpace out)

/-! ## Branch naming -/

/-- `migrate.Client.GenerateBranchName` of the context revision (the one
`MigratePR` uses): `migrated-{number}`. -/
def GenerateBranchName (pr : PRInfo) : Str :=
  str "migrated-" ++ intToStr pr.number

/-- `slugify` (`migrate.go`): lower-case, collapse each maximal run of
characters outside `[a-z0-9]` to one hyphen (the regexp
`[^a-z0-9]+` → `-`), trim leading/trailing hyphens, cut to 40 characters
and trim a trailing hyphen left by the cut. -/
def collapseNonAlnum : Str → Bool → Str
  | [], _ => []
  | c :: cs, inRun =>
    if ('a' ≤ c ∧ c ≤ 'z') ∨ ('0' ≤ c ∧ c ≤ '9') then c :: collapseNonAlnum cs false
    else if inRun then collapseNonAlnum cs true
    else '-' :: collapseNonAlnum cs true

/-- `slugify` itself. -/
def slugify (s : Str) : Str :=
  let s := goToLower s
  let s := collapseNonAlnum s false
  let s := goTrimChar '-' s
  if s.length > 40 then goTrimRightChar '-' (s.take 40) else s

/-- `GenerateBranchName` of the draft revision of `migrate.go` (the
slug-based Branch Namer): `pr-{number}-{author}-{slug(title)}`, with the
slug re-cut when the whole name exceeds 80 characters and the fixed
prefix leaves room (`maxSlugLen > 0`). -/
def GenerateBranchNameSlug (pr : PRInfo) : Str :=
  let titleSlug := slugify pr.title
  let branchName := str "pr-" ++ intToStr pr.number ++ str "-" ++ pr.author ++ str "-" ++ titleSlug
  if branchName.length > 80 then
    let baseLen := (str "pr-" ++ intToStr pr.number ++ str "-" ++ pr.author ++ str "-").length
    let maxSlugLen : Int := 80 - (baseLen : Int)
    if maxSlugLen > 0 then
      let titleSlug := titleSlug.take (min titleSlug.length maxSlugLen.toNat)
      str "pr-" ++ intToStr pr.number ++ str "-" ++ pr.author ++ str "-" ++ titleSlug
    else branchName
  else branchName

/-! ## Reference resolution (`parsePRRef`) -/

/-- A control byte in the sense of `net/url.stringContainsCTLByte`
(`b < 0x20` or `b = 0x7f`), which makes `url.Parse` fail. -/
def isCTLChar (c : Char) : Bool := c < ' ' || c = '\x7f'

/-- Value of a hexadecimal digit (`ishex`/`unhex` of `net/url`). -/
def hexDigitVal (c : Char) : Option Nat :=
  if '0' ≤ c ∧ c ≤ '9' then some (c.toNat - '0'.toNat)
  else if 'a' ≤ c ∧ c ≤ 'f' then some (c.toNat - 'a'.toNat + 10)
  else if 'A' ≤ c ∧ c ≤ 'F' then some (c.toNat - 'A'.toNat + 10)
  else none

/-- A quoted string as `strconv.Quote` renders it inside `net/url` error
messages (without Go's escaping of special characters inside the quotes,
which the claims never exercise). -/
def goQuote (s : Str) : Str := '\x22' :: s ++ ['\x22']

/-- Percent-decoding of a URL path: `net/url.unescape` in `encodePath`
mode, as `URL.setPath` applies it when `url.Parse` stores `u.Path`.  Each
`%XX` with two hexadecimal digits decodes to the byte it denotes (so
`%2F` becomes `/`); a `%` not followed by two hexadecimal digits is an
`EscapeError` carrying the offending run of at most three characters. -/
def decodePath : Str → Except Str Str
  | [] => .ok []
  | '%' :: a :: b :: rest =>
    (match hexDigitVal a, hexDigitVal b with
     | some x, some y => (decodePath rest).map (fun p => Char.ofNat (16 * x + y) :: p)
     | _, _ => .error ['%', a, b])
  | ['%', a] => .error ['%', a]
  | ['%'] => .error ['%']
  | c :: rest => (decodePath rest).map (fun p => c :: p)

/-- Models `url.Parse(prRef)` followed by reading `u.Path`, for
references with an `http://`/`https://` scheme whose authority is made of
`simpleHostChar`s: Go first strips the fragment, rejects any control
byte, splits off the query, and percent-decodes the path.  The `.error`
value is the rendered message of the `*url.Error` (or control-character
error) that `parsePRRef` wraps as `invalid URL: …`. -/
def urlParse (ref : Str) : Except Str Str :=
  let noFrag := ref.takeWhile (fun c => c ≠ '#')
  if noFrag.any isCTLChar then
    .error (str "parse " ++ goQuote noFrag ++ str ": net/url: invalid control character in URL")
  else
    let noQuery := noFrag.takeWhile (fun c => c ≠ '?')
    let rest :=
      if goStartsWith (str "https://") noQuery then noQuery.drop (str "https://").length
      else if goStartsWith (str "http://") noQuery then noQuery.drop (str "http://").length
      else noQuery
    match decodePath (rest.dropWhile (fun c => c ≠ '/')) with
    | .ok p => .ok p
    | .error esc =>
      .error (str "parse " ++ goQuote noFrag ++ str ": invalid URL escape " ++ goQuote esc)

/-- `strings.Split(strings.Trim(u.Path, "/"), "/")` of `parsePRRef`,
applied to the (percent-decoded) path. -/
def urlSegments (path : Str) : List Str :=
  goSplitChar '/' (goTrimChar '/' path)

/-- `migrate.Client.parsePRRef`.  Returns the parse outcome together with
the collaborator calls it performed (`CurrentRepo` in the bare-number
case). -/
def parsePRRef (g : Git) (prRef : Str) : Except MError (Str × Str × Int) × List Call :=
  match goAtoi prRef with
  | some num =>
    (match g.currentRepo with
     | .error e => (.error (.repoResolution e), [.currentRepo])
     | .ok (owner, repo) => (.ok (owner, repo, num), [.currentRepo]))
  | none =>
    if goStartsWith (str "http://") prRef || goStartsWith (str "https://") prRef then
      match urlParse prRef with
      | .error e => (.error (.invalidURL e), [])
      | .ok path =>
        match urlSegments path with
        | [p0, p1, p2, p3] =>
          if p2 ≠ str "pull" then (.error .invalidPRURLFormat, [])
          else
            match goAtoi p3 with
            | none => (.error (.invalidPRNumberURL p3), [])
            | some num => (.ok (p0, p1, num), [])
        | _ => (.error .invalidPRURLFormat, [])
    else if goContains prRef (str "#") then
      match goSplitChar '#' prRef with
      | [p0, p1] =>
        (match goAtoi p1 with
         | none => (.error (.invalidPRNumber p1), [])
         | some num =>
           match goSplitChar '/' p0 with
           | [owner, repo] => (.ok (owner, repo, num), [])
           | _ => (.error .invalidRepoFormat, []))
      | _ => (.error .invalidFormat, [])
    else (.error (.invalidPRRef prRef), [])

/-! ## The migration orchestrator (`MigratePR`) -/

/-- `migrate.Client.validatePRState`: the validation gate.  Returns the
outcome together with the events it emitted. -/
def validatePRState (pr : PRInfo) : Except MError Unit × Trace :=
  if ¬ pr.isFork then
    (.error (.prNotFork pr.number),
     emit1 .error (str "PR is not from a fork (it's from the same repository)") [])
  else if ¬ goEqualFold pr.state (str "open") then
    (.error (.prClosed pr.number pr.state),
     emit1 .error (str "PR is " ++ pr.state ++ str " (only open PRs can be migrated)") [])
  else (.ok (), Trace.nil)

/-- `migrate.Client.emitPRInfo`. -/
def emitPRInfo (pr : PRInfo) : Trace :=
  (emit1 .info (str "Title: " ++ pr.title) []).app
    ((emit1 .info (str "Author: " ++ pr.author) []).app
      ((emit1 .info (str "Base branch: " ++ pr.baseBranch) []).app
        (if pr.isFork then emit1 .info (str "PR is from a fork") []
         else emit1 .info (str "PR is from the same repository") [])))

/-- The `gh pr create …` suggestion string of `handleDryRun` and
`emitCreatePR` (in the Go source it is a raw string, so `\n` is the
two-character sequence backslash–n). -/
def createPRCommand (pr : PRInfo) : Str :=
  str "gh pr create --title \x22" ++ pr.title ++
    str "\x22 --body \x22Migrated from #" ++ intToStr pr.number ++
    str "\\nOriginal author: @" ++ pr.author ++ str "\x22 --base " ++ pr.baseBranch

/-- `migrate.Client.handleDryRun`: the `Command` events describing what a
real run would execute. -/
def handleDryRun (pr : PRInfo) (branchName : Str) (opts : Options) : Trace :=
  ((emit1 .command (str "Would execute:") (str "git checkout " ++ pr.baseBranch)).app
    ((emit1 .command (str "Would execute:") (str "git pull origin " ++ pr.baseBranch)).app
      (emit1 .command (str "Would execute:")
        (str "gh pr checkout " ++ intToStr pr.number ++ str " -b " ++ branchName)))).app
  ((if ¬ opts.noPush then
      emit1 .command (str "Would execute:") (str "git push -u origin " ++ branchName)
    else Trace.nil).app
   (if ¬ opts.noCreate then
      (emit1 .info (str "Would suggest creating PR with:") []).app
        (emit1 .command [] (createPRCommand pr))
    else Trace.nil))

/-- `migrate.Client.checkoutAndPullBase`. -/
def checkoutAndPullBase (g : Git) (pr : PRInfo) : Except Str Unit × Trace :=
  let t := (emit1 .info (str "Switching to " ++ pr.baseBranch ++ str " branch...") []).app
    (call1 (.checkout pr.baseBranch))
  match g.checkout pr.baseBranch with
  | .error e => (.error e, t)
  | .ok _ =>
    let t := t.app ((emit1 .info (str "Pulling latest changes...") []).app
      (call1 (.pull (str "origin") pr.baseBranch)))
    match g.pull (str "origin") pr.baseBranch with
    | .error e => (.error e, t)
    | .ok _ => (.ok (), t)

/-- `migrate.Client.pushAndEmit`. -/
def pushAndEmit (g : Git) (branchName : Str) : Except Str Unit × Trace :=
  let t := (emit1 .info (str "Pushing to origin...") []).app
    (call1 (.push (str "origin") branchName))
  match g.push (str "origin") branchName with
  | .error e => (.error e, t)
  | .ok _ => (.ok (), t.app (emit1 .success (str "Pushed to origin") []))

/-- `migrate.Client.emitCreatePR`. -/
def emitCreatePR (pr : PRInfo) : Trace :=
  (emit1 .info [] []).app
    ((emit1 .info (str "Create PR with:") []).app
      (emit1 .command [] (createPRCommand pr)))

/-- The branch name `MigratePR` uses: `opts.BranchName` when non-empty,
else `GenerateBranchName` (inlined in the Go source as a conditional
assignment). -/
def computedBranchName (opts : Options) (pr : PRInfo) : Str :=
  if opts.branchName.isEmpty then GenerateBranchName pr else opts.branchName

/-- The tail of `MigratePR` after a real (non-dry) run has materialized
the PR branch: the push block, the success event and the PR-creation
suggestion. -/
def migrateFinish (g : Git) (pr : PRInfo) (branchName : Str) (opts : Options) :
    Except MError Unit × Trace :=
  let pushPart : Except MError Unit × Trace :=
    if ¬ opts.noPush then
      match pushAndEmit g branchName with
      | (.error e, t) => (.error (.collab e), t)
      | (.ok _, t) => (.ok (), t)
    else (.ok (), Trace.nil)
  match pushPart with
  | (.error e, t) => (.error e, t)
  | (.ok _, t) =>
    let t := t.app
      (emit1 .success (str "Successfully migrated PR #" ++ intToStr pr.number) [])
    let t := t.app
      (if ¬ opts.noCreate ∧ ¬ opts.noPush then emitCreatePR pr else Trace.nil)
    (.ok (), t)

/-- `migrate.Client.MigratePR` (context revision): resolve, fetch,
validate, plan the branch, then either report the dry run or execute.
Returns the outcome and the full trace of events and collaborator
calls. -/
def MigratePR (g : Git) (gh : GitHub) (prRef : Str) (opts : Options) :
    Except MError Unit × Trace :=
  match parsePRRef g prRef with
  | (.error e, cs) => (.error e, ⟨[], cs⟩)
  | (.ok (owner, repo, number), cs) =>
    let t : Trace := ⟨[], cs⟩
    let t := t.app (emit1 .info
      (str "Migrating PR #" ++ intToStr number ++ str " from " ++ owner ++ str "/" ++ repo) [])
    let t := t.app ((emit1 .info (str "Fetching PR information...") []).app
      (call1 (.getPR owner repo number)))
    match gh.getPR owner repo number with
    | .error e => (.error (.collab e), t)
    | .ok pr =>
      match validatePRState pr with
      | (.error e, tv) => (.error e, t.app tv)
      | (.ok _, tv) =>
        let t := (t.app tv).app (emitPRInfo pr)
        let branchName := computedBranchName opts pr
        let t := t.app ((emit1 .info (str "Branch: " ++ branchName) []).app
          (call1 (.hasBranch branchName)))
        if g.hasBranch branchName then (.error (.branchExists branchName), t)
        else if opts.dryRun then (.ok (), t.app (handleDryRun pr branchName opts))
        else
          match checkoutAndPullBase g pr with
          | (.error e, tc) => (.error (.collab e), t.app tc)
          | (.ok _, tc) =>
            let t := (t.app tc).app
              ((emit1 .info (str "Checking out PR #" ++ intToStr pr.number ++ str "...") []).app
                (call1 (.checkoutPR owner repo pr.number branchName)))
            match gh.checkoutPR owner repo pr.number branchName with
            | .error e => (.error (.collab e), t)
            | .ok _ =>
              match migrateFinish g pr branchName opts with
              | (r, tf) => (r, t.app tf)

/-! ## The batch coordinator (`MigratePRs`) -/

/-- The loop body of `MigratePRs`, one reference at a time: returns the
trace, the accumulated failure strings (`"PR {ref}: {message}"`) and the
success count, in reference order. -/
def migrateLoop (g : Git) (gh : GitHub) (opts : Options) :
    List Str → Trace × List Str × Nat
  | [] => (Trace.nil, [], 0)
  | prRef :: rest =>
    let t0 := emit1 .info [] []
    let (res, t1) := MigratePR g gh prRef opts
    let (t2, errs, sc) :=
      match res with
      | .error e =>
        (emit1 .error (str "Failed to migrate " ++ prRef) e.message,
         [str "PR " ++ prRef ++ str ": " ++ e.message], 0)
      | .ok _ => (Trace.nil, [], 1)
    let (tr, errsr, scr) := migrateLoop g gh opts rest
    ((t0.app (t1.app t2)).app tr, errs ++ errsr, sc + scr)

/-- `migrate.Client.MigratePRs`: drive `MigratePR` over every reference,
then either report the aggregate failure or overall success. -/
def MigratePRs (g : Git) (gh : GitHub) (prRefs : List Str) (opts : Options) :
    Except MError Unit × Trace :=
  match migrateLoop g gh opts prRefs with
  | (t, errors, successCount) =>
    if errors.length > 0 then
      (.error (.batch errors),
       (t.app (emit1 .info [] [])).app
         (emit1 .info (str "Migrated " ++ natToStr successCount ++ str "/" ++
            natToStr prRefs.length ++ str " PRs successfully") []))
    else
      (.ok (),
       (t.app (emit1 .info [] [])).app
         (emit1 .success (str "Successfully migrated all " ++
            natToStr prRefs.length ++ str " PRs") []))

/-! ## Batch outcome helpers and concrete fixtures -/

/-- The failure entry `"PR {ref}: {message}"` that `MigratePRs` records for
a reference, `none` when the migration of that reference succeeds. -/
def prFailMsg (g : Git) (gh : GitHub) (opts : Options) (r : Str) : Option Str :=
  match (MigratePR g gh r opts).1 with
  | .error e => some (str "PR " ++ r ++ str ": " ++ e.message)
  | .ok _ => none

/-- Does the migration of one reference succeed? -/
def migrateOk (g : Git) (gh : GitHub) (opts : Options) (r : Str) : Bool :=
  match (MigratePR g gh r opts).1 with
  | .error _ => false
  | .ok _ => true

/-- An open fork PR used in the concrete runs below. -/
def samplePR : PRInfo :=
  ⟨7, str "Fix bug", str "dev", str "feat", str "main", str "OPEN", str "u", str "oid", true⟩

/-- The same PR, but not from a fork. -/
def nonForkPR : PRInfo := { samplePR with isFork := false }

/-- A Git provider whose `CurrentRepo` parses the given raw output of
`git remote get-url origin`, with no existing local branches and every
operation succeeding. -/
def gitWithRemote (remoteOutput : Str) : Git :=
  ⟨CurrentRepo (.ok remoteOutput), fun _ => false, fun _ => .ok (),
   fun _ _ => .ok (), fun _ _ => .ok ()⟩

/-- The Git provider of a clone of `github.com/acme/widgets` over SSH. -/
def gitAcme : Git := gitWithRemote (str "git@github.com:acme/widgets.git\n")

/-- Same, but every local branch name is already taken. -/
def gitBranchTaken : Git := { gitAcme with hasBranch := fun _ => true }

/-- A GitHub provider that always returns `samplePR`. -/
def sampleGitHub : GitHub := ⟨fun _ _ _ => .ok samplePR, fun _ _ _ _ => .ok ()⟩

/-- A GitHub provider that always returns the non-fork PR. -/
def nonForkGitHub : GitHub := ⟨fun _ _ _ => .ok nonForkPR, fun _ _ _ _ => .ok ()⟩

/-- A GitHub provider whose `GetPR` fails exactly for owner `"B"`. -/
def failBGitHub : GitHub :=
  ⟨fun owner _ _ => if owner = str "B" then .error (str "boom") else .ok samplePR,
   fun _ _ _ _ => .ok ()⟩

/-- Default options with dry-run switched on. -/
def dryOpts : Options := ⟨true, [], false, false⟩

/-- Default options: a real run. -/
def realOpts : Options := ⟨false, [], false, false⟩

/-! ## Helper lemmas -/

/-- `parsePRRef` performs at most the read-only `CurrentRepo` call. -/
theorem parsePRRef_calls (g : Git) (s : Str) :
    (parsePRRef g s).2 = [] ∨ (parsePRRef g s).2 = [Call.currentRepo] := by
  unfold parsePRRef
  rcases hA : goAtoi s with _ | n
  · left
    simp only [hA]
    repeat' split
    all_goals rfl
  · right
    simp only [hA]
    rcases hB : g.currentRepo with e | p
    · simp [hB]
    · rcases p with ⟨o, r⟩
      simp [hB]

/-- `emitPRInfo` performs no collaborator call. -/
theorem emitPRInfo_calls (pr : PRInfo) : (emitPRInfo pr).calls = [] := by
  unfold emitPRInfo
  repeat' split <;> simp [Trace.app, emit1]

/-- `handleDryRun` performs no collaborator call. -/
theorem handleDryRun_calls (pr : PRInfo) (b : Str) (o : Options) :
    (handleDryRun pr b o).calls = [] := by
  unfold handleDryRun
  repeat' split <;> simp [Trace.app, emit1, Trace.nil]

/-- A fork PR in a case-insensitively open state passes validation with no
events. -/
theorem validatePRState_pass (pr : PRInfo) (hfork : pr.isFork = true)
    (hopen : goEqualFold pr.state (str "open") = true) :
    validatePRState pr = (.ok (), Trace.nil) := by
  simp [validatePRState, hfork, hopen]

/-- Dropping leading `c`s never leaves `c` at the head. -/
theorem dropLeadChar_head (c : Char) (l : Str) : (dropLeadChar c l).head? ≠ some c := by
  induction l with
  | nil => simp [dropLeadChar]
  | cons a as ih =>
    by_cases h : a = c
    · simpa [dropLeadChar, h] using ih
    · simp [dropLeadChar, h]

/-- Dropping leading characters never lengthens a list. -/
theorem dropLeadChar_length (c : Char) (l : Str) : (dropLeadChar c l).length ≤ l.length := by
  induction l with
  | nil => simp [dropLeadChar]
  | cons a as ih =>
    by_cases h : a = c
    · simp only [dropLeadChar, h, if_pos]
      exact le_trans ih (Nat.le_succ _)
    · simp [dropLeadChar, h]

/-- After a right trim of `c` the last character is not `c`. -/
theorem goTrimRightChar_getLast (c : Char) (l : Str) :
    (goTrimRightChar c l).getLast? ≠ some c := by
  unfold goTrimRightChar
  rw [List.getLast?_reverse]
  exact dropLeadChar_head c l.reverse

/-- A right trim never lengthens a list. -/
theorem goTrimRightChar_length (c : Char) (l : Str) :
    (goTrimRightChar c l).length ≤ l.length := by
  unfold goTrimRightChar
  rw [List.length_reverse]
  exact le_trans (dropLeadChar_length c l.reverse) (by rw [List.length_reverse])

/-- After a two-sided trim of `c` the last character is not `c`. -/
theorem goTrimChar_getLast (c : Char) (l : Str) :
    (goTrimChar c l).getLast? ≠ some c := by
  unfold goTrimChar
  rw [List.getLast?_reverse]
  exact dropLeadChar_head c _

/-- Go `strings.HasPrefix` holds of a literal prefix. -/
theorem goStartsWith_append (p t : Str) : goStartsWith p (p ++ t) = true := by
  induction p with
  | nil => rfl
  | cons c cs ih => simp [goStartsWith, ih]

/-- Go `strings.TrimPrefix` drops a literal prefix. -/
theorem goTrimStart_append (p t : Str) : goTrimStart p (p ++ t) = t := by
  simp [goTrimStart, goStartsWith_append, List.drop_left]

/-- Go `strings.HasSuffix` holds of a literal suffix. -/
theorem goHasSuffix_append (s t : Str) : goHasSuffix s (t ++ s) = true := by
  simp [goHasSuffix, List.reverse_append, goStartsWith_append]

/-- Go `strings.TrimSuffix` drops a literal suffix. -/
theorem goTrimSuffix_append (s t : Str) : goTrimSuffix s (t ++ s) = t := by
  simp only [goTrimSuffix, goHasSuffix_append, if_pos, List.length_append]
  rw [Nat.add_sub_cancel]
  exact List.take_left t s

/-- Splitting a separator-free list yields that list alone. -/
theorem goSplitChar_not_mem (sep : Char) (l : Str) (h : sep ∉ l) :
    goSplitChar sep l = [l] := by
  induction l with
  | nil => rfl
  | cons c cs ih =>
    simp only [List.mem_cons, not_or] at h
    have hc : ¬ c = sep := fun he => h.1 he.symm
    simp [goSplitChar, hc, ih h.2]

/-- Splitting `a ++ sep :: b` with separator-free `a` and `b` yields
`[a, b]`. -/
theorem goSplitChar_sep_append (sep : Char) (a b : Str) (ha : sep ∉ a) (hb : sep ∉ b) :
    goSplitChar sep (a ++ sep :: b) = [a, b] := by
  induction a with
  | nil => simp [goSplitChar, goSplitChar_not_mem sep b hb]
  | cons c cs ih =>
    simp only [List.mem_cons, not_or] at ha
    have hc : ¬ c = sep := fun he => ha.1 he.symm
    simp [goSplitChar, hc, ih ha.2]

/-- The loop of `MigratePRs` records exactly the failures, in reference
order, and counts exactly the successes. -/
theorem migrateLoop_spec (g : Git) (gh : GitHub) (opts : Options) (refs : List Str) :
    (migrateLoop g gh opts refs).2.1 = refs.filterMap (prFailMsg g gh opts) ∧
    (migrateLoop g gh opts refs).2.2 = (refs.filter (migrateOk g gh opts)).length := by
  induction refs with
  | nil => simp [migrateLoop]
  | cons r rest ih =>
    rcases ih with ⟨ih1, ih2⟩
    simp only [migrateLoop]
    rcases h : (MigratePR g gh r opts) with ⟨res, t1⟩
    rcases res with e | u <;>
      simp [h, prFailMsg, migrateOk, List.filterMap_cons, List.filter_cons, ih1, ih2,
        ← migrateLoop.eq_def]
    omega

/-! ## Claim C1 — dry run -/

/-- C1, counterexample: a dry run of the bare-number reference `"123"`
succeeds, yet the collaborator method `CurrentRepo` is invoked — so it is
not true that *only* `hasBranch` and `getPR` are called. -/
theorem c1_counterexample :
    (MigratePR gitAcme sampleGitHub (str "123") dryOpts).1 = .ok () ∧
    Call.currentRepo ∈ (MigratePR gitAcme sampleGitHub (str "123") dryOpts).2.calls := by
  decide

/-- C1, amended: for every reference and `PRInfo` that pass resolution,
fetching, validation and the branch-existence check, a dry run
(`opts.dryRun = true`) returns success; the collaborator calls are exactly
the resolution calls (at most the read-only `currentRepo`) followed by
`getPR` and `hasBranch`; in particular `checkout`, `pull`, `push` and
`checkoutPR` are never invoked. -/
theorem migratePR_dryRun (g : Git) (gh : GitHub) (prRef : Str) (opts : Options)
    (owner repo : Str) (number : Int) (cs : List Call) (pr : PRInfo)
    (hparse : parsePRRef g prRef = (.ok (owner, repo, number), cs))
    (hpr : gh.getPR owner repo number = .ok pr)
    (hfork : pr.isFork = true)
    (hopen : goEqualFold pr.state (str "open") = true)
    (hbr : g.hasBranch (computedBranchName opts pr) = false)
    (hdry : opts.dryRun = true) :
    (MigratePR g gh prRef opts).1 = .ok () ∧
    (MigratePR g gh prRef opts).2.calls =
      cs ++ [.getPR owner repo number, .hasBranch (computedBranchName opts pr)] ∧
    ∀ c ∈ (MigratePR g gh prRef opts).2.calls, c.isMutating = false ∧
      (c = .currentRepo ∨ c = .getPR owner repo number ∨
        c = .hasBranch (computedBranchName opts pr)) := by
  have hval := validatePRState_pass pr hfork hopen
  have h1 : (MigratePR g gh prRef opts).1 = .ok () := by
    simp only [MigratePR, hparse, hpr, hval, hbr, hdry]
    simp
  have h2 : (MigratePR g gh prRef opts).2.calls =
      cs ++ [.getPR owner repo number, .hasBranch (computedBranchName opts pr)] := by
    simp only [MigratePR, hparse, hpr, hval, hbr, hdry]
    simp [Trace.app, Trace.nil, emit1, call1, emitPRInfo_calls, handleDryRun_calls]
  refine ⟨h1, h2, ?_⟩
  rw [h2]
  intro c hc
  simp only [List.mem_append, List.mem_cons, List.mem_singleton] at hc
  rcases hc with hc | hc | hc
  · rcases parsePRRef_calls g prRef with h0 | h0 <;> rw [hparse] at h0 <;> simp at h0
    · simp [h0] at hc
    · rw [h0] at hc
      simp at hc
      subst hc
      exact ⟨rfl, Or.inl rfl⟩
  · subst hc; exact ⟨rfl, Or.inr (Or.inl rfl)⟩
  · simp at hc; subst hc; exact ⟨rfl, Or.inr (Or.inr rfl)⟩

/-- C1, witness: the amended theorem at a concrete dry run of `"123"`. -/
theorem migratePR_dryRun_witness :
    (MigratePR gitAcme sampleGitHub (str "123") dryOpts).1 = .ok () ∧
    (MigratePR gitAcme sampleGitHub (str "123") dryOpts).2.calls =
      [Call.currentRepo] ++ [.getPR (str "acme") (str "widgets") 123,
        .hasBranch (computedBranchName dryOpts samplePR)] := by
  have h := migratePR_dryRun gitAcme sampleGitHub (str "123") dryOpts
    (str "acme") (str "widgets") 123 [.currentRepo] samplePR
    (by decide) (by decide) (by decide) (by decide) (by decide) (by decide)
  exact ⟨h.1, h.2.1⟩

/-! ## Claim C2 — existing branch -/

/-- C2: whenever a migration reaches the branch-existence check and the
Git provider's `hasBranch` reports the computed branch name as already
existing, `MigratePR` returns `BranchAlreadyExists{name}` and no mutating
collaborator method (`checkout`, `pull`, `push`, `checkoutPR`) is
invoked. -/
theorem migratePR_branchExists (g : Git) (gh : GitHub) (prRef : Str) (opts : Options)
    (owner repo : Str) (number : Int) (cs : List Call) (pr : PRInfo)
    (hparse : parsePRRef g prRef = (.ok (owner, repo, number), cs))
    (hpr : gh.getPR owner repo number = .ok pr)
    (hfork : pr.isFork = true)
    (hopen : goEqualFold pr.state (str "open") = true)
    (hbr : g.hasBranch (computedBranchName opts pr) = true) :
    (MigratePR g gh prRef opts).1 = .error (.branchExists (computedBranchName opts pr)) ∧
    (MigratePR g gh prRef opts).2.calls =
      cs ++ [.getPR owner repo number, .hasBranch (computedBranchName opts pr)] ∧
    ∀ c ∈ (MigratePR g gh prRef opts).2.calls, c.isMutating = false := by
  have hval := validatePRState_pass pr hfork hopen
  have h1 : (MigratePR g gh prRef opts).1 = .error (.branchExists (computedBranchName opts pr)) := by
    simp only [MigratePR, hparse, hpr, hval, hbr]
    simp
  have h2 : (MigratePR g gh prRef opts).2.calls =
      cs ++ [.getPR owner repo number, .hasBranch (computedBranchName opts pr)] := by
    simp only [MigratePR, hparse, hpr, hval, hbr]
    simp [Trace.app, Trace.nil, emit1, call1, emitPRInfo_calls]
  refine ⟨h1, h2, ?_⟩
  rw [h2]
  intro c hc
  simp only [List.mem_append, List.mem_cons, List.mem_singleton] at hc
  rcases hc with hc | hc | hc
  · rcases parsePRRef_calls g prRef with h0 | h0 <;> rw [hparse] at h0 <;> simp at h0
    · simp [h0] at hc
    · rw [h0] at hc
      simp at hc
      subst hc
      rfl
  · subst hc; rfl
  · simp at hc; subst hc; rfl

/-- C2, witness: the theorem at a concrete run in which every branch name
is taken. -/
theorem migratePR_branchExists_witness :
    (MigratePR gitBranchTaken sampleGitHub (str "123") realOpts).1 =
      .error (.branchExists (computedBranchName realOpts samplePR)) ∧
    (MigratePR gitBranchTaken sampleGitHub (str "123") realOpts).2.calls =
      [Call.currentRepo] ++ [.getPR (str "acme") (str "widgets") 123,
        .hasBranch (computedBranchName realOpts samplePR)] := by
  have h := migratePR_branchExists gitBranchTaken sampleGitHub (str "123") realOpts
    (str "acme") (str "widgets") 123 [.currentRepo] samplePR
    (by decide) (by decide) (by decide) (by decide) (by decide)
  exact ⟨h.1, h.2.1⟩

/-! ## Claim C3 — validation gate -/

/-- C3: for every fetched `PRInfo`, validation passes exactly when
`isFork` is true and the state case-insensitively equals `"open"`; a
non-fork PR makes `MigratePR` fail with `PRNotFork` (emitting an `Error`
event) regardless of state, and a fork PR in any other state (any letter
case) makes it fail with `PRClosed` carrying that state (emitting an
`Error` event). -/
theorem validation_gate (g : Git) (gh : GitHub) (prRef : Str) (opts : Options)
    (owner repo : Str) (number : Int) (cs : List Call) (pr : PRInfo)
    (hparse : parsePRRef g prRef = (.ok (owner, repo, number), cs))
    (hpr : gh.getPR owner repo number = .ok pr) :
    ((validatePRState pr).1 = .ok () ↔
      (pr.isFork = true ∧ goEqualFold pr.state (str "open") = true)) ∧
    (pr.isFork = false →
      (MigratePR g gh prRef opts).1 = .error (.prNotFork pr.number) ∧
      ∃ e ∈ (MigratePR g gh prRef opts).2.events, e.type = .error) ∧
    (pr.isFork = true → goEqualFold pr.state (str "open") = false →
      (MigratePR g gh prRef opts).1 = .error (.prClosed pr.number pr.state) ∧
      ∃ e ∈ (MigratePR g gh prRef opts).2.events, e.type = .error) := by
  refine ⟨?_, ?_, ?_⟩
  · unfold validatePRState
    rcases h : pr.isFork with _ | _ <;>
      rcases h2 : goEqualFold pr.state (str "open") with _ | _ <;> simp [h, h2]
  · intro hfork
    have hval : validatePRState pr =
        (.error (.prNotFork pr.number),
         emit1 .error (str "PR is not from a fork (it's from the same repository)") []) := by
      simp [validatePRState, hfork]
    constructor
    · simp only [MigratePR, hparse, hpr, hval]
    · simp only [MigratePR, hparse, hpr, hval]
      refine ⟨⟨.error, str "PR is not from a fork (it's from the same repository)", []⟩, ?_, rfl⟩
      simp [Trace.app, emit1, call1]
  · intro hfork hstate
    have hval : validatePRState pr =
        (.error (.prClosed pr.number pr.state),
         emit1 .error (str "PR is " ++ pr.state ++ str " (only open PRs can be migrated)") []) := by
      simp [validatePRState, hfork, hstate]
    constructor
    · simp only [MigratePR, hparse, hpr, hval]
    · simp only [MigratePR, hparse, hpr, hval]
      refine ⟨⟨.error, str "PR is " ++ pr.state ++ str " (only open PRs can be migrated)", []⟩,
        ?_, rfl⟩
      simp [Trace.app, emit1, call1]

/-- C3, witness: the theorem at a concrete non-fork PR. -/
theorem validation_gate_witness :
    (MigratePR gitAcme nonForkGitHub (str "123") realOpts).1 =
      .error (.prNotFork nonForkPR.number) := by
  have h := validation_gate gitAcme nonForkGitHub (str "123") realOpts
    (str "acme") (str "widgets") 123 [.currentRepo] nonForkPR
    (by decide) (by decide)
  exact (h.2.1 (by decide)).1

/-! ## Claim C4 — batch aggregation -/

/-- C4: `MigratePRs` processes every reference in order without halting,
recording each failure as a `"PR {reference}: {message}"` entry; if any
failure occurred it emits the `Info` event "Migrated X/Y PRs successfully"
and returns one aggregate error whose text lists every recorded
(reference, message) pair, and otherwise it emits a `Success` event and
returns success. -/
theorem migratePRs_spec (g : Git) (gh : GitHub) (opts : Options) (refs : List Str) :
    (refs.filterMap (prFailMsg g gh opts) ≠ [] →
      (MigratePRs g gh refs opts).1 = .error (.batch (refs.filterMap (prFailMsg g gh opts))) ∧
      (MError.batch (refs.filterMap (prFailMsg g gh opts))).message =
        str "failed to migrate some PRs:\n" ++
          goJoin (str "\n") (refs.filterMap (prFailMsg g gh opts)) ∧
      (⟨.info, str "Migrated " ++ natToStr (refs.filter (migrateOk g gh opts)).length ++
          str "/" ++ natToStr refs.length ++ str " PRs successfully", []⟩ : Event)
        ∈ (MigratePRs g gh refs opts).2.events) ∧
    (refs.filterMap (prFailMsg g gh opts) = [] →
      (MigratePRs g gh refs opts).1 = .ok () ∧
      (⟨.success, str "Successfully migrated all " ++ natToStr refs.length ++ str " PRs",
          []⟩ : Event)
        ∈ (MigratePRs g gh refs opts).2.events) := by
  rcases migrateLoop_spec g gh opts refs with ⟨hl1, hl2⟩
  constructor
  · intro hne
    have hlen : 0 < (refs.filterMap (prFailMsg g gh opts)).length :=
      List.length_pos.mpr hne
    refine ⟨?_, rfl, ?_⟩ <;>
    · simp only [MigratePRs]
      rcases hm : migrateLoop g gh opts refs with ⟨t, errs, sc⟩
      rw [hm] at hl1 hl2
      simp only at hl1 hl2
      subst hl1
      subst hl2
      simp [hlen, Trace.app, emit1]
  · intro heq
    constructor <;>
    · simp only [MigratePRs]
      rcases hm : migrateLoop g gh opts refs with ⟨t, errs, sc⟩
      rw [hm] at hl1 hl2
      simp only at hl1 hl2
      subst hl1
      subst hl2
      simp [heq, Trace.app, emit1]

/-- C4, witness: two references of which the first succeeds and the second
one's `GetPR` fails; the aggregate error lists the failing pair and its
text contains `"B"`. -/
theorem migratePRs_spec_witness :
    (MigratePRs gitAcme failBGitHub [str "acme/widgets#1", str "B/repo#2"] realOpts).1 =
      .error (.batch [str "PR B/repo#2: boom"]) ∧
    goContains (MError.batch [str "PR B/repo#2: boom"]).message (str "B") = true := by
  have h := (migratePRs_spec gitAcme failBGitHub realOpts
    [str "acme/widgets#1", str "B/repo#2"]).1 (by decide)
  have he : ([str "acme/widgets#1", str "B/repo#2"].filterMap
      (prFailMsg gitAcme failBGitHub realOpts)) = [str "PR B/repo#2: boom"] := by decide
  rw [he] at h
  exact ⟨h.1, by decide⟩

/-! ## Claim C5 — current-repository resolution -/

/-- C5, counterexample: an SSH remote `host:owner/repo.git` of a host
other than `github.com` is rejected by `CurrentRepo`, so a bare-number
reference fails to resolve — refuting "for any host". -/
theorem c5_counterexample :
    parsePRRef (gitWithRemote (str "git@gitlab.com:acme/widgets.git\n")) (str "123") =
      (.error (.repoResolution
        (str "invalid remote URL format: git@gitlab.com:acme/widgets.git")), [.currentRepo]) := by
  decide

/-- C5, amended: for every bare decimal-number reference, the resolver
returns `(currentOwner, currentRepo, parsedNumber)` where
`(currentOwner, currentRepo)` is whatever the Git provider's
`CurrentRepo` yields for the `origin` remote, and a `CurrentRepo` failure
is propagated as the repo-resolution error.  `CurrentRepo` recognises the
SSH form by the literal prefix `git@github.com:` —
`git@github.com:owner/repo[.git]` parses to `(owner, repo)` for any
slash-free owner and repo — and otherwise attempts to parse only remotes
containing the substring `github.com`, splitting on the first
`github.com/` regardless of the remote's actual host (so
`https://evil.com/github.com/o/r`, host `evil.com`, parses to `(o, r)`);
a remote containing no `github.com` at all fails with the
invalid-remote-URL error.  In particular, with remote
`git@github.com:acme/widgets.git` the reference `"123"` resolves to
`(acme, widgets, 123)`. -/
theorem currentRepo_github_amended :
    (∀ (g : Git) (prRef : Str) (n : Int) (o r : Str), goAtoi prRef = some n →
      g.currentRepo = .ok (o, r) →
      parsePRRef g prRef = (.ok (o, r, n), [.currentRepo])) ∧
    (∀ (g : Git) (prRef : Str) (n : Int) (e : Str), goAtoi prRef = some n →
      g.currentRepo = .error e →
      parsePRRef g prRef = (.error (.repoResolution e), [.currentRepo])) ∧
    (∀ owner repo : Str, '/' ∉ owner → '/' ∉ repo →
      parseRemoteURL (str "git@github.com:" ++ owner ++ str "/" ++ repo ++ str ".git") =
        .ok (owner, repo)) ∧
    (∀ owner repo : Str, '/' ∉ owner → '/' ∉ repo →
      goHasSuffix (str ".git") (owner ++ str "/" ++ repo) = false →
      parseRemoteURL (str "git@github.com:" ++ owner ++ str "/" ++ repo) =
        .ok (owner, repo)) ∧
    (∀ remoteURL : Str,
      goStartsWith (str "git@github.com:") remoteURL = false →
      goContains remoteURL (str "github.com") = false →
      parseRemoteURL remoteURL = .error (str "invalid remote URL format: " ++ remoteURL)) ∧
    parseRemoteURL (str "https://evil.com/github.com/o/r") = .ok (str "o", str "r") ∧
    parsePRRef gitAcme (str "123") = (.ok (str "acme", str "widgets", 123), [.currentRepo]) := by
  refine ⟨?_, ?_, ?_, ?_, ?_, by decide, by decide⟩
  · intro g prRef n o r hn hc
    simp [parsePRRef, hn, hc]
  · intro g prRef n e hn hc
    simp [parsePRRef, hn, hc]
  · intro owner repo ho hr
    have hform : str "git@github.com:" ++ owner ++ str "/" ++ repo ++ str ".git" =
        str "git@github.com:" ++ ((owner ++ '/' :: repo) ++ str ".git") := by
      simp [List.append_assoc]
      rfl
    rw [hform]
    unfold parseRemoteURL
    rw [goStartsWith_append]
    simp only [if_pos]
    rw [goTrimStart_append, goTrimSuffix_append, goSplitChar_sep_append '/' owner repo ho hr]
  · intro owner repo ho hr hsuf
    have hform : str "git@github.com:" ++ owner ++ str "/" ++ repo =
        str "git@github.com:" ++ (owner ++ '/' :: repo) := by
      simp [List.append_assoc]
      rfl
    have hsuf2 : goHasSuffix (str ".git") (owner ++ '/' :: repo) = false := by
      have hr2 : owner ++ str "/" ++ repo = owner ++ '/' :: repo := by
        simp [List.append_assoc]
        rfl
      rw [hr2] at hsuf
      exact hsuf
    rw [hform]
    unfold parseRemoteURL
    rw [goStartsWith_append]
    simp only [if_pos]
    rw [goTrimStart_append]
    simp only [goTrimSuffix, hsuf2, Bool.false_eq_true, if_neg, not_false_iff]
    rw [goSplitChar_sep_append '/' owner repo ho hr]
  · intro remoteURL h1 h2
    unfold parseRemoteURL
    simp [h1, h2]

/-- C5, witness: the amended SSH universal at owner `acme`, repo
`widgets`. -/
theorem currentRepo_github_amended_witness :
    parseRemoteURL (str "git@github.com:" ++ str "acme" ++ str "/" ++ str "widgets" ++
      str ".git") = .ok (str "acme", str "widgets") :=
  currentRepo_github_amended.2.2.1 (str "acme") (str "widgets") (by decide) (by decide)

/-! ## Claim C6 — URL references -/

/-- C7: `slugify` lower-cases, collapses runs outside `[a-z0-9]` to one
hyphen, trims hyphens at both ends and cuts to 40 characters trimming a
trailing hyphen left by the cut; `slugify "Hello World" = "hello-world"`,
`slugify "" = ""`, and for every input the output is at most 40
characters long and does not end with a hyphen. -/
theorem slugify_spec :
    slugify (str "Hello World") = str "hello-world" ∧
    slugify (str "") = str "" ∧
    ∀ s : Str, (slugify s).length ≤ 40 ∧ (slugify s).getLast? ≠ some '-' := by
  refine ⟨by decide, by decide, fun s => ?_⟩
  unfold slugify
  by_cases h : (goTrimChar '-' (collapseNonAlnum (goToLower s) false)).length > 40
  · simp only [h, if_pos]
    refine ⟨?_, goTrimRightChar_getLast '-' _⟩
    refine le_trans (goTrimRightChar_length '-' _) ?_
    simp [List.length_take]
  · simp only [h, if_neg, not_false_iff]
    exact ⟨by omega, goTrimChar_getLast '-' _⟩

/-- C7, witness: the universal part of the theorem at one 67-character
input. -/
theorem slugify_spec_witness :
    (slugify (str "The Quick Brown Fox Jumps Over The Lazy Dog And Keeps Running On!!")).length
      ≤ 40 :=
  (slugify_spec.2.2 (str "The Quick Brown Fox Jumps Over The Lazy Dog And Keeps Running On!!")).1

/-! ## Claim C8 — the slug-based branch namer -/

/-- C8, counterexample: for `PRInfo{number: 42, author: 71 × 'u',
title: "a b c"}` the composed name exceeds 80 characters; the code
re-truncates the slug to length 2, producing a name of exactly 80
characters that ends in a hyphen — the trailing hyphen left by the cut is
*not* trimmed. -/
theorem c8_counterexample :
    (GenerateBranchNameSlug
      ⟨42, str "a b c", List.replicate 71 'u', [], [], [], [], [], true⟩).getLast? = some '-' ∧
    (GenerateBranchNameSlug
      ⟨42, str "a b c", List.replicate 71 'u', [], [], [], [], [], true⟩).length = 80 := by
  decide

/-- C8, amended: with the slug-variant Branch Namer,
`GenerateBranchName pr` is `pr-{number}-{author}-{slug(title)}` whenever
that composition is at most 80 characters — in particular
`PRInfo{number: 42, author: "dev", title: "Fix bug #9"}` yields
`"pr-42-dev-fix-bug-9"` — and whenever the composition exceeds 80
characters while the fixed prefix `pr-{number}-{author}-` is shorter than
80, the slug is re-truncated so the total fits within 80 characters; a
trailing hyphen left by the cut is not trimmed. -/
theorem genBranchNameSlug_spec :
    GenerateBranchNameSlug ⟨42, str "Fix bug #9", str "dev", [], [], [], [], [], true⟩ =
      str "pr-42-dev-fix-bug-9" ∧
    (∀ pr : PRInfo,
      ¬ (str "pr-" ++ intToStr pr.number ++ str "-" ++ pr.author ++ str "-" ++
          slugify pr.title).length > 80 →
      GenerateBranchNameSlug pr =
        str "pr-" ++ intToStr pr.number ++ str "-" ++ pr.author ++ str "-" ++ slugify pr.title) ∧
    (∀ pr : PRInfo,
      (str "pr-" ++ intToStr pr.number ++ str "-" ++ pr.author ++ str "-" ++
        slugify pr.title).length > 80 →
      (str "pr-" ++ intToStr pr.number ++ str "-" ++ pr.author ++ str "-").length < 80 →
      (GenerateBranchNameSlug pr).length ≤ 80) := by
  refine ⟨by decide, ?_, ?_⟩
  · intro pr h
    simp only [GenerateBranchNameSlug, h, if_neg, not_false_iff]
  · intro pr hgt hbase
    have hpos : (80 : Int) - ((str "pr-" ++ intToStr pr.number ++ str "-" ++ pr.author ++
        str "-").length : Int) > 0 := by
      omega
    simp only [GenerateBranchNameSlug, hgt, if_pos, hpos]
    simp only [List.length_append, List.length_take] at hbase hgt ⊢
    omega

/-- C8, witness: the amended bound at the 71-character author. -/
theorem genBranchNameSlug_spec_witness :
    (GenerateBranchNameSlug
      ⟨42, str "a b c", List.replicate 71 'u', [], [], [], [], [], true⟩).length ≤ 80 :=
  genBranchNameSlug_spec.2.2
    ⟨42, str "a b c", List.replicate 71 'u', [], [], [], [], [], true⟩ (by decide) (by decide)

/-! ## Claim C9 — positivity of PR numbers -/

/-- C9, counterexample: the reference `"0"` resolves successfully with PR
number 0 — the resolver has no positivity check. -/
theorem c9_counterexample :
    parsePRRef gitAcme (str "0") = (.ok (str "acme", str "widgets", 0), [.currentRepo]) := by
  decide

/-- C9, amended: the resolver performs no positivity check — the number
in the resulting reference is whatever integer the number part parses to,
including zero and negative values, in all three reference forms. -/
theorem parse_no_positivity_amended :
    parsePRRef gitAcme (str "a/b#-3") = (.ok (str "a", str "b", -3), []) ∧
    parsePRRef gitAcme (str "https://h/o/r/pull/-7") = (.ok (str "o", str "r", -7), []) ∧
    parsePRRef gitAcme (str "-5") = (.ok (str "acme", str "widgets", -5), [.currentRepo]) :=
  ⟨by decide, by decide, by decide⟩

/-! ## Claim C10 — empty batch -/

/-- C10: `MigratePRs` on the empty reference list returns success, emits
the `Success` event "Successfully migrated all 0 PRs" (after one blank
`Info` line) and performs no collaborator call. -/
theorem migratePRs_empty (g : Git) (gh : GitHub) (opts : Options) :
    MigratePRs g gh [] opts =
      (.ok (), ⟨[⟨.info, [], []⟩,
        ⟨.success, str "Successfully migrated all 0 PRs", []⟩], []⟩) := by
  simp [MigratePRs, migrateLoop, Trace.app, Trace.nil, emit1, natToStr, natToStrAux, str]

end GitMfpr
